import Mathlib

/-!
Shallow embedding of the streaming transcode pipeline implemented in
`src/components/webm-converter.tsx` (function `WebmConverter`, in particular
`runConversion`), together with theorems about its parameter derivation,
codec negotiation, encode-task behaviour, progress tracking and resource
handling.  Real-number arithmetic of the source is modelled over `ℚ`,
machine integers over `ℤ`/`ℕ`.
-/

/-- JS `Math.round`: round half toward positive infinity, `⌊x + 1/2⌋`. -/
def jsRound (q : ℚ) : ℤ := ⌊q + 1/2⌋

/-- Quality preset identifiers `"high" | "balanced" | "small"`. -/
inductive QualityId
  | high
  | balanced
  | small
deriving DecidableEq

/-- `QualityPreset` from the source: id plus `bitrateScale` (labels/hints are
presentation-only and omitted). -/
structure QualityPreset where
  id : QualityId
  bitrateScale : ℚ
deriving DecidableEq

/-- `{ id: "high", bitrateScale: 1.35 }`. -/
def qualityHigh : QualityPreset := ⟨.high, 27/20⟩

/-- `{ id: "balanced", bitrateScale: 1 }`. -/
def qualityBalanced : QualityPreset := ⟨.balanced, 1⟩

/-- `{ id: "small", bitrateScale: 0.7 }`. -/
def qualitySmall : QualityPreset := ⟨.small, 7/10⟩

/-- The `qualityPresets` array. -/
def qualityPresets : List QualityPreset := [qualityHigh, qualityBalanced, qualitySmall]

/-- Latency mode `"realtime" | "quality"`. -/
inductive LatencyMode
  | realtime
  | quality
deriving DecidableEq

/-- Speed preset identifiers `"fast" | "standard" | "quality"`. -/
inductive SpeedId
  | fast
  | standard
  | quality
deriving DecidableEq

/-- `SpeedPreset` from the source: id, latency mode and `gopSeconds`. -/
structure SpeedPreset where
  id : SpeedId
  latencyMode : LatencyMode
  gopSeconds : ℚ
deriving DecidableEq

/-- `{ id: "fast", latencyMode: "realtime", gopSeconds: 1.5 }`. -/
def speedFast : SpeedPreset := ⟨.fast, .realtime, 3/2⟩

/-- `{ id: "standard", latencyMode: "realtime", gopSeconds: 2.5 }`. -/
def speedStandard : SpeedPreset := ⟨.standard, .realtime, 5/2⟩

/-- `{ id: "quality", latencyMode: "quality", gopSeconds: 4 }`. -/
def speedQuality : SpeedPreset := ⟨.quality, .quality, 4⟩

/-- The `speedPresets` array. -/
def speedPresets : List SpeedPreset := [speedFast, speedStandard, speedQuality]

/-- `evenDimension = (value) => Math.max(2, Math.floor(value / 2) * 2)`. -/
def evenDimension (value : ℚ) : ℤ := max 2 (⌊value / 2⌋ * 2)

/-- The video-dimension/frame-rate observations the run reads:
`videoTrack.getSettings()` width/height/frameRate (each possibly `undefined`)
and the `videoElement.videoWidth` / `videoHeight` fallbacks (0 when unknown). -/
structure VideoSourceInfo where
  settingsWidth : Option ℤ
  settingsHeight : Option ℤ
  videoWidth : ℤ
  videoHeight : ℤ
  settingsFrameRate : Option ℚ
deriving DecidableEq

/-- JS `a || b` on numbers (0 is falsy). -/
def jsOrInt (a b : ℤ) : ℤ := if a = 0 then b else a

/-- `const widthSource = videoSettings.width ?? (videoElement.videoWidth || 0)`. -/
def widthSource (s : VideoSourceInfo) : ℤ := s.settingsWidth.getD s.videoWidth

/-- `const heightSource = videoSettings.height ?? (videoElement.videoHeight || 0)`. -/
def heightSource (s : VideoSourceInfo) : ℤ := s.settingsHeight.getD s.videoHeight

/-- The argument `widthSource || 1280` of `evenDimension`. -/
def fallbackWidth (s : VideoSourceInfo) : ℤ := jsOrInt (widthSource s) 1280

/-- The argument `heightSource || 720` of `evenDimension`. -/
def fallbackHeight (s : VideoSourceInfo) : ℤ := jsOrInt (heightSource s) 720

/-- `const width = evenDimension(widthSource || 1280)`. -/
def encWidth (s : VideoSourceInfo) : ℤ := evenDimension (fallbackWidth s : ℚ)

/-- `const height = evenDimension(heightSource || 720)`. -/
def encHeight (s : VideoSourceInfo) : ℤ := evenDimension (fallbackHeight s : ℚ)

/-- `const frameRate = videoSettings.frameRate ?? 30`. -/
def frameRateOf (s : VideoSourceInfo) : ℚ := s.settingsFrameRate.getD 30

/-- `const baseBitrate = Math.max(1_500_000, Math.round(width * height * frameRate * 0.07))`. -/
def baseBitrate (s : VideoSourceInfo) : ℤ :=
  max 1500000 (jsRound ((encWidth s : ℚ) * (encHeight s : ℚ) * frameRateOf s * (7/100)))

/-- `const videoBitrate = Math.round(baseBitrate * quality.bitrateScale)`. -/
def videoBitrate (s : VideoSourceInfo) (q : QualityPreset) : ℤ :=
  jsRound ((baseBitrate s : ℚ) * q.bitrateScale)

/-- `const audioBitrate = quality.id === "high" ? 192_000 : quality.id === "small" ? 96_000 : 128_000`. -/
def audioBitrateOf (q : QualityPreset) : ℤ :=
  match q.id with
  | .high => 192000
  | .small => 96000
  | .balanced => 128000

/-- `const keyInterval = Math.max(1, Math.round(frameRate * speed.gopSeconds))`. -/
def keyIntervalOf (fr gop : ℚ) : ℤ := max 1 (jsRound (fr * gop))

/-- Spec-side definition, following the words of the claim literally: video
bitrate `max(1_500_000, round(width*height*frameRate*0.07)) * quality.bitrateScale`,
with no rounding applied after the scale factor (hence a rational value). -/
def specClaimedVideoBitrate (width height : ℤ) (fr scale : ℚ) : ℚ :=
  ((max 1500000 (jsRound ((width : ℚ) * (height : ℚ) * fr * (7/100))) : ℤ) : ℚ) * scale

/-- Spec-side definition of the amended claim: the scaled bitrate is rounded
to an integer, `round(max(1_500_000, round(width*height*frameRate*0.07)) * scale)`. -/
def specVideoBitrate (width height : ℤ) (fr scale : ℚ) : ℤ :=
  jsRound (((max 1500000 (jsRound ((width : ℚ) * (height : ℚ) * fr * (7/100))) : ℤ) : ℚ) * scale)

/-- A 1280×720 source whose track reports the NTSC frame rate 29.97 fps. -/
def ntscSource : VideoSourceInfo := ⟨some 1280, some 720, 0, 0, some (2997/100)⟩

/-- A 1280×720 source at 30 fps, the source of the spec's worked example. -/
def hdSource : VideoSourceInfo := ⟨some 1280, some 720, 0, 0, some 30⟩

lemma floor_intCast_div_two (x : ℤ) : ⌊((x : ℚ)) / 2⌋ = x / 2 := by
  have h : ((2 : ℕ) : ℚ) = (2 : ℚ) := by norm_num
  rw [← h, Rat.floor_intCast_div_natCast]
  norm_num

lemma evenDimension_intCast (x : ℤ) : evenDimension (x : ℚ) = max 2 (x - x % 2) := by
  unfold evenDimension
  rw [floor_intCast_div_two]
  have h := Int.ediv_add_emod x 2
  omega

/-- C3: the width and height handed to the encoder are always even and at
least 2; each equals the corresponding source dimension (with the 1280/720
fallback substituted when the source dimension is zero/undefined) floored to
the nearest even integer and clamped below at 2. -/
theorem encoder_dimensions_even_floored (s : VideoSourceInfo) :
    (2 ∣ encWidth s ∧ 2 ≤ encWidth s ∧ 2 ∣ encHeight s ∧ 2 ≤ encHeight s)
    ∧ encWidth s = max 2 (fallbackWidth s - fallbackWidth s % 2)
    ∧ encHeight s = max 2 (fallbackHeight s - fallbackHeight s % 2)
    ∧ fallbackWidth s = (if widthSource s = 0 then 1280 else widthSource s)
    ∧ fallbackHeight s = (if heightSource s = 0 then 720 else heightSource s) := by
  have hw : encWidth s = max 2 (fallbackWidth s - fallbackWidth s % 2) :=
    evenDimension_intCast (fallbackWidth s)
  have hh : encHeight s = max 2 (fallbackHeight s - fallbackHeight s % 2) :=
    evenDimension_intCast (fallbackHeight s)
  refine ⟨⟨?_, ?_, ?_, ?_⟩, hw, hh, rfl, rfl⟩ <;> first
    | (rw [hw]; omega)
    | (rw [hh]; omega)

/-- C2 counterexample: for the 1280×720 source at 29.97 fps with
`quality = small` (scale 0.7), the video bitrate computed by the code differs
from the claim's formula `max(1_500_000, round(w*h*fr*0.07)) * bitrateScale`,
because the code rounds again after applying the scale factor. -/
theorem videoBitrate_claim_counterexample :
    (videoBitrate ntscSource qualitySmall : ℚ)
      ≠ specClaimedVideoBitrate (encWidth ntscSource) (encHeight ntscSource)
          (frameRateOf ntscSource) qualitySmall.bitrateScale := by
  have hw : encWidth ntscSource = 1280 := by
    norm_num [encWidth, evenDimension, fallbackWidth, jsOrInt, widthSource, ntscSource]
  have hh : encHeight ntscSource = 720 := by
    norm_num [encHeight, evenDimension, fallbackHeight, jsOrInt, heightSource, ntscSource]
  have hfr : frameRateOf ntscSource = 2997/100 := by
    norm_num [frameRateOf, ntscSource]
  have hbase : baseBitrate ntscSource = 1933425 := by
    rw [baseBitrate, hw, hh, hfr]
    norm_num [jsRound]
  have hcode : videoBitrate ntscSource qualitySmall = 1353398 := by
    rw [videoBitrate, hbase]
    norm_num [jsRound, qualitySmall]
  have hspec : specClaimedVideoBitrate (encWidth ntscSource) (encHeight ntscSource)
      (frameRateOf ntscSource) qualitySmall.bitrateScale = 2706795/2 := by
    rw [specClaimedVideoBitrate, hw, hh, hfr]
    norm_num [jsRound, qualitySmall]
  rw [hcode, hspec]
  norm_num

/-- C2 (amended): the derived video bitrate equals
`round(max(1_500_000, round(width*height*frameRate*0.07)) * quality.bitrateScale)`
— the scaled value is rounded to an integer — and in particular for a
1280×720, 30 fps source with `quality = balanced` it is 1,935,360 bits/sec. -/
theorem videoBitrate_amended (s : VideoSourceInfo) (q : QualityPreset) :
    videoBitrate s q
      = specVideoBitrate (encWidth s) (encHeight s) (frameRateOf s) q.bitrateScale
    ∧ videoBitrate hdSource qualityBalanced = 1935360 := by
  constructor
  · rfl
  · have hw : encWidth hdSource = 1280 := by
      norm_num [encWidth, evenDimension, fallbackWidth, jsOrInt, widthSource, hdSource]
    have hh : encHeight hdSource = 720 := by
      norm_num [encHeight, evenDimension, fallbackHeight, jsOrInt, heightSource, hdSource]
    have hfr : frameRateOf hdSource = 30 := by
      norm_num [frameRateOf, hdSource]
    have hbase : baseBitrate hdSource = 1935360 := by
      rw [baseBitrate, hw, hh, hfr]
      norm_num [jsRound]
    rw [videoBitrate, hbase]
    norm_num [jsRound, qualityBalanced]

/-- The mutable progress state of one run: `progressOffsetUs` and the last
value passed to `setProgress` (the reported percentage, `null` when unset). -/
structure ProgressState where
  offsetUs : Option ℚ
  progress : Option ℤ
deriving DecidableEq

/-- `updateProgress(timestampUs?)` from the source.  Returns the new state and
the list of values reported to `setProgress` by this call (empty when the
early return `if (!durationSeconds) return` fires; `durationSeconds` is falsy
when `null` or `0`).  `currentTime` is `videoElement.currentTime` at call time. -/
def updateProgress (durationSeconds : Option ℚ) (currentTime : ℚ)
    (timestampUs : Option ℚ) (s : ProgressState) : ProgressState × List (Option ℤ) :=
  match durationSeconds with
  | none => (s, [])
  | some d =>
    if d = 0 then (s, [])
    else
      let offsetAndTime : Option ℚ × ℚ :=
        match timestampUs with
        | none => (s.offsetUs, currentTime)
        | some t =>
          let off := s.offsetUs.getD t
          (some off, max 0 ((t - off) / 1000000))
      let pct : ℤ := min 100 (jsRound (offsetAndTime.2 / d * 100))
      let newP : ℤ := max (s.progress.getD 0) pct
      (⟨offsetAndTime.1, some newP⟩, [some newP])

/-- One call of `updateProgress` during the run, either from an encode task
(with a unit timestamp) or from the 200 ms interval timer (without one). -/
structure ProgressCall where
  currentTime : ℚ
  timestampUs : Option ℚ
deriving DecidableEq

/-- Folds a sequence of `updateProgress` calls, collecting every value
reported to `setProgress`. -/
def runProgressCalls (durationSeconds : Option ℚ) (s : ProgressState) :
    List ProgressCall → ProgressState × List (Option ℤ)
  | [] => (s, [])
  | c :: rest =>
    let step := updateProgress durationSeconds c.currentTime c.timestampUs s
    let next := runProgressCalls durationSeconds step.1 rest
    (next.1, step.2 ++ next.2)

/-- Every value `setProgress` receives over one conversion, in order: the run
start executes `setProgress(0)` followed by `resetOutput()`'s
`setProgress(null)`, then the `updateProgress` calls report, and a successful
run ends with `setProgress(100)`. -/
def conversionReports (durationSeconds : Option ℚ) (calls : List ProgressCall)
    (succeeds : Bool) : List (Option ℤ) :=
  [some 0, none] ++ (runProgressCalls durationSeconds ⟨none, none⟩ calls).2
    ++ (if succeeds then [some 100] else [])

lemma updateProgress_known (d : ℚ) (hd : d ≠ 0) (ct : ℚ) (ts : Option ℚ)
    (s : ProgressState) :
    ∃ p : ℤ, (updateProgress (some d) ct ts s).1.progress = some p
      ∧ (updateProgress (some d) ct ts s).2 = [some p]
      ∧ s.progress.getD 0 ≤ p
      ∧ (s.progress.getD 0 ≤ 100 → p ≤ 100) := by
  unfold updateProgress
  simp only [if_neg hd]
  refine ⟨_, rfl, rfl, le_max_left _ _, fun h => ?_⟩
  exact max_le h (min_le_left _ _)

lemma runProgressCalls_chain (d : ℚ) (hd : d ≠ 0) :
    ∀ (calls : List ProgressCall) (s : ProgressState),
      0 ≤ s.progress.getD 0 → s.progress.getD 0 ≤ 100 →
      List.Chain' (· ≤ ·)
          (s.progress.getD 0 :: (runProgressCalls (some d) s calls).2.filterMap id)
        ∧ ∀ v ∈ (runProgressCalls (some d) s calls).2.filterMap id,
            0 ≤ v ∧ v ≤ 100 := by
  intro calls
  induction calls with
  | nil => intro s h0 h100; simp [runProgressCalls]
  | cons c rest ih =>
    intro s h0 h100
    obtain ⟨p, hp, hout, hle, hb⟩ :=
      updateProgress_known d hd c.currentTime c.timestampUs s
    have hp100 : p ≤ 100 := hb h100
    have hp0 : 0 ≤ p := le_trans h0 hle
    have ihs := ih (updateProgress (some d) c.currentTime c.timestampUs s).1
      (by rw [hp]; simpa using hp0) (by rw [hp]; simpa using hp100)
    rw [hp] at ihs
    simp only [Option.getD_some] at ihs
    constructor
    · show List.Chain' (· ≤ ·) (s.progress.getD 0 ::
        ((updateProgress (some d) c.currentTime c.timestampUs s).2
          ++ (runProgressCalls (some d) _ rest).2).filterMap id)
      rw [hout]
      simp only [List.filterMap_append, List.filterMap_cons, id, List.filterMap_nil]
      exact List.Chain'.cons hle ihs.1
    · show ∀ v ∈ ((updateProgress (some d) c.currentTime c.timestampUs s).2
          ++ (runProgressCalls (some d) _ rest).2).filterMap id, 0 ≤ v ∧ v ≤ 100
      rw [hout]
      simp only [List.filterMap_append, List.filterMap_cons, id, List.filterMap_nil]
      intro v hv
      rcases List.mem_append.1 hv with hv | hv
      · rcases List.mem_singleton.1 hv with rfl
        exact ⟨hp0, hp100⟩
      · exact ihs.2 v hv

/-- C1: in a run whose source duration is known (a positive number of
seconds), the numeric percentages reported to `setProgress` form a
non-decreasing sequence — each `updateProgress` keeps the running maximum of
previously reported values — and when the run succeeds the last reported
value is exactly 100. -/
theorem progress_monotone_and_success (d : ℚ) (calls : List ProgressCall)
    (hd : 0 < d) :
    List.Chain' (· ≤ ·) ((conversionReports (some d) calls true).filterMap id)
    ∧ ((conversionReports (some d) calls true).filterMap id).getLast? = some 100 := by
  have hne : d ≠ 0 := ne_of_gt hd
  have hmain := runProgressCalls_chain d hne calls ⟨none, none⟩ (by simp) (by simp)
  simp only [Option.getD_none] at hmain
  have hrw : (conversionReports (some d) calls true).filterMap id
      = (0 :: (runProgressCalls (some d) ⟨none, none⟩ calls).2.filterMap id) ++ [100] := by
    simp [conversionReports, List.filterMap_append, List.filterMap_cons, id]
  rw [hrw]
  constructor
  · rw [List.chain'_append]
    refine ⟨hmain.1, List.chain'_singleton _, ?_⟩
    intro x hx y hy
    rcases List.mem_singleton.1 (by simpa using hy)
    have hxmem : x ∈ 0 :: (runProgressCalls (some d) ⟨none, none⟩ calls).2.filterMap id := by
      obtain ⟨hne, hxeq⟩ := List.mem_getLast?_eq_getLast hx
      rw [hxeq]
      exact List.getLast_mem hne
    rcases List.mem_cons.1 hxmem with rfl | hxmem
    · norm_num
    · exact (hmain.2 x hxmem).2
  · exact List.getLast?_concat _

/-- Witness for C1 at duration 1 s with no update calls. -/
theorem progress_monotone_and_success_witness :
    0 < (1 : ℚ)
    ∧ (List.Chain' (· ≤ ·) ((conversionReports (some 1) [] true).filterMap id)
      ∧ ((conversionReports (some 1) [] true).filterMap id).getLast? = some 100) :=
  ⟨zero_lt_one, progress_monotone_and_success 1 [] zero_lt_one⟩

/-- C6 counterexample: a run with unknown duration that succeeds reports
`0`, then `null`, then `100` — the reported progress does not stay
unreported for the entire run, because `setProgress(0)` runs at start and
`setProgress(100)` runs on success regardless of the duration. -/
theorem progress_unknown_duration_counterexample :
    conversionReports none [] true = [some 0, none, some 100]
    ∧ ¬ (∀ r ∈ conversionReports none [] true, r = none) := by
  constructor
  · rfl
  · intro h
    have h100 := h (some 100) (by simp [conversionReports, runProgressCalls])
    simp at h100

lemma runProgressCalls_unknown (d : Option ℚ) (hd : d = none ∨ d = some 0) :
    ∀ (calls : List ProgressCall) (s : ProgressState),
      runProgressCalls d s calls = (s, []) := by
  intro calls
  induction calls with
  | nil => intro s; rfl
  | cons c rest ih =>
    intro s
    have hstep : updateProgress d c.currentTime c.timestampUs s = (s, []) := by
      rcases hd with rfl | rfl
      · rfl
      · simp [updateProgress]
    simp [runProgressCalls, hstep, ih]

/-- C6 (amended): when the total source duration is unknown (`null`, or `0`
which is equally falsy), `updateProgress` never reports anything — the run's
reports reduce to the start transient `0` followed by `null`, plus a final
`100` if and only if the run succeeds. -/
theorem progress_unknown_duration_amended (d : Option ℚ) (calls : List ProgressCall)
    (succeeds : Bool) (hd : d = none ∨ d = some 0) :
    (runProgressCalls d ⟨none, none⟩ calls).2 = []
    ∧ conversionReports d calls succeeds
        = [some 0, none] ++ (if succeeds then [some 100] else []) := by
  have h := runProgressCalls_unknown d hd calls ⟨none, none⟩
  refine ⟨by rw [h], ?_⟩
  simp [conversionReports, h]

/-- Witness for the amended C6 at `d = none` with one timer update call. -/
theorem progress_unknown_duration_amended_witness :
    ((none : Option ℚ) = none ∨ (none : Option ℚ) = some 0)
    ∧ ((runProgressCalls none ⟨none, none⟩ [⟨5, none⟩]).2 = []
      ∧ conversionReports none [⟨5, none⟩] true
          = [some 0, none] ++ (if true then [some 100] else [])) :=
  ⟨Or.inl rfl, progress_unknown_duration_amended none [⟨5, none⟩] true (Or.inl rfl)⟩

/-- One observable action of an encode task: submitting a unit to its encoder
(`keyFrameOpt` is the `{ keyFrame: … }` options object, absent for audio),
closing the unit, or yielding to the scheduler via `waitForBreathingRoom`. -/
inductive TaskAction
  | submit (timestamp : ℚ) (keyFrameOpt : Option Bool)
  | closeUnit (timestamp : ℚ)
  | yieldBreathingRoom
deriving DecidableEq

/-- The `videoTask` loop: pull a frame, bump the 1-based `videoFrameCount`,
encode with `keyFrame: videoFrameCount % keyInterval === 0`, close the frame,
and yield when `videoEncoder.encodeQueueSize > 12`.  `queueAfter c` is the
encoder's pending queue size observed after the `c`-th submission, and
`count` the number of frames already submitted. -/
def videoTaskTrace (keyInterval : ℤ) (queueAfter : ℕ → ℕ) :
    ℕ → List ℚ → List TaskAction
  | _, [] => []
  | count, ts :: rest =>
    [.submit ts (some (decide ((((count + 1 : ℕ)) : ℤ) % keyInterval = 0))), .closeUnit ts]
      ++ (if 12 < queueAfter (count + 1) then [.yieldBreathingRoom] else [])
      ++ videoTaskTrace keyInterval queueAfter (count + 1) rest

/-- The `audioTask` while-loop: encode each sample with no options object,
close it, and yield when `audioEncoder.encodeQueueSize > 20`. -/
def audioLoopTrace (queueAfter : ℕ → ℕ) : ℕ → List ℚ → List TaskAction
  | _, [] => []
  | count, ts :: rest =>
    [.submit ts none, .closeUnit ts]
      ++ (if 20 < queueAfter (count + 1) then [.yieldBreathingRoom] else [])
      ++ audioLoopTrace queueAfter (count + 1) rest

/-- The whole `audioTask`: nothing when audio is disabled; otherwise the
buffered probe sample (if any) is encoded without options and closed — with
no queue check — and then the loop runs. -/
def audioTaskTrace (audioEnabled : Bool) (buffered : Option ℚ)
    (queueAfter : ℕ → ℕ) (samples : List ℚ) : List TaskAction :=
  match audioEnabled, buffered with
  | false, _ => []
  | true, none => audioLoopTrace queueAfter 0 samples
  | true, some ts => [.submit ts none, .closeUnit ts] ++ audioLoopTrace queueAfter 0 samples

/-- Projection of a trace onto the submissions it makes. -/
def submitsOf (tr : List TaskAction) : List (ℚ × Option Bool) :=
  tr.filterMap fun a =>
    match a with
    | .submit ts f => some (ts, f)
    | _ => none

lemma videoTaskTrace_eq_flatMap (k : ℤ) (q : ℕ → ℕ) :
    ∀ (c : ℕ) (tss : List ℚ),
      videoTaskTrace k q c tss
        = (tss.enumFrom c).flatMap fun p =>
            [.submit p.2 (some (decide (((p.1 + 1 : ℕ) : ℤ) % k = 0))), .closeUnit p.2]
              ++ (if 12 < q (p.1 + 1) then [.yieldBreathingRoom] else []) := by
  intro c tss
  induction tss generalizing c with
  | nil => rfl
  | cons ts rest ih =>
    simp only [videoTaskTrace, List.enumFrom, List.flatMap_cons, ih (c + 1)]

lemma audioLoopTrace_eq_flatMap (q : ℕ → ℕ) :
    ∀ (c : ℕ) (tss : List ℚ),
      audioLoopTrace q c tss
        = (tss.enumFrom c).flatMap fun p =>
            [.submit p.2 none, .closeUnit p.2]
              ++ (if 20 < q (p.1 + 1) then [.yieldBreathingRoom] else []) := by
  intro c tss
  induction tss generalizing c with
  | nil => rfl
  | cons ts rest ih =>
    simp only [audioLoopTrace, List.enumFrom, List.flatMap_cons, ih (c + 1)]

lemma submitsOf_append (l₁ l₂ : List TaskAction) :
    submitsOf (l₁ ++ l₂) = submitsOf l₁ ++ submitsOf l₂ :=
  List.filterMap_append l₁ l₂ _

lemma submitsOf_videoTaskTrace (k : ℤ) (q : ℕ → ℕ) :
    ∀ (c : ℕ) (tss : List ℚ),
      submitsOf (videoTaskTrace k q c tss)
        = (tss.enumFrom c).map fun p =>
            (p.2, some (decide (((p.1 + 1 : ℕ) : ℤ) % k = 0))) := by
  intro c tss
  induction tss generalizing c with
  | nil => rfl
  | cons ts rest ih =>
    have hyield :
        submitsOf (if 12 < q (c + 1) then [TaskAction.yieldBreathingRoom] else []) = [] := by
      by_cases h : 12 < q (c + 1) <;> simp [submitsOf, h]
    simp only [videoTaskTrace, submitsOf_append, hyield, ih (c + 1), List.enumFrom,
      List.map_cons]
    simp [submitsOf]

lemma submitsOf_audioLoopTrace (q : ℕ → ℕ) :
    ∀ (c : ℕ) (tss : List ℚ),
      submitsOf (audioLoopTrace q c tss) = tss.map fun ts => (ts, none) := by
  intro c tss
  induction tss generalizing c with
  | nil => rfl
  | cons ts rest ih =>
    have hyield :
        submitsOf (if 20 < q (c + 1) then [TaskAction.yieldBreathingRoom] else []) = [] := by
      by_cases h : 20 < q (c + 1) <;> simp [submitsOf, h]
    simp only [audioLoopTrace, submitsOf_append, hyield, ih (c + 1), List.map_cons]
    simp [submitsOf]

/-- C4: the keyframe interval `max(1, round(frameRate * gopSeconds))` is at
least 1; the video task submits the `i`-th frame (0-based) with
`keyFrame: true` exactly when its 1-based sequence count `i + 1` is a
multiple of the interval; and every audio submission (the buffered probe
sample included) carries no keyframe options object at all. -/
theorem keyframe_cadence (fr gop : ℚ) (q qa : ℕ → ℕ) (tss : List ℚ)
    (e : Bool) (buffered : Option ℚ) (atss : List ℚ) :
    1 ≤ keyIntervalOf fr gop
    ∧ submitsOf (videoTaskTrace (keyIntervalOf fr gop) q 0 tss)
        = tss.enum.map (fun p =>
            (p.2, some (decide (((p.1 + 1 : ℕ) : ℤ) % keyIntervalOf fr gop = 0))))
    ∧ submitsOf (audioTaskTrace e buffered qa atss)
        = (if e then (buffered.toList ++ atss).map (fun ts => (ts, none)) else []) := by
  refine ⟨le_max_left _ _, submitsOf_videoTaskTrace _ q 0 tss, ?_⟩
  cases e
  · rfl
  · cases buffered with
    | none =>
      simp only [audioTaskTrace]
      rw [submitsOf_audioLoopTrace]
      simp
    | some ts =>
      simp only [audioTaskTrace]
      rw [submitsOf_append, submitsOf_audioLoopTrace]
      simp [submitsOf]

/-- C9: each encode-task loop iteration submits its unit, closes it, and then
yields to the scheduler precisely when the encoder's pending queue observed
after that submission exceeds the class threshold — strictly more than 12
pending units for video, strictly more than 20 for audio — and never
otherwise. -/
theorem backpressure_thresholds (k : ℤ) (q qa : ℕ → ℕ) (tss atss : List ℚ) :
    videoTaskTrace k q 0 tss
      = tss.enum.flatMap (fun p =>
          [.submit p.2 (some (decide (((p.1 + 1 : ℕ) : ℤ) % k = 0))), .closeUnit p.2]
            ++ (if 12 < q (p.1 + 1) then [.yieldBreathingRoom] else []))
    ∧ audioLoopTrace qa 0 atss
      = atss.enum.flatMap (fun p =>
          [.submit p.2 none, .closeUnit p.2]
            ++ (if 20 < qa (p.1 + 1) then [.yieldBreathingRoom] else [])) :=
  ⟨videoTaskTrace_eq_flatMap k q 0 tss, audioLoopTrace_eq_flatMap qa 0 atss⟩

/-- The shared part `videoBaseConfig` of every candidate: width, height,
bitrate and framerate. -/
structure VideoBaseConfig where
  width : ℤ
  height : ℤ
  bitrate : ℤ
  framerate : ℚ
deriving DecidableEq

/-- A `VideoEncoderConfig` candidate: codec string, the base fields, and the
optional `latencyMode` and `hardwareAcceleration` entries. -/
structure VideoEncoderConfig where
  codec : String
  width : ℤ
  height : ℤ
  bitrate : ℤ
  framerate : ℚ
  latencyMode : Option LatencyMode
  hardwareAcceleration : Option String
deriving DecidableEq

/-- `const codecCandidates = ["avc1.42E01E", "avc1.4D401E", "avc1.640028", "avc1.42001E"]`. -/
def codecCandidates : List String := ["avc1.42E01E", "avc1.4D401E", "avc1.640028", "avc1.42001E"]

/-- The `videoConfigCandidates` array: for each codec, in order, the variant
with latency mode and `hardwareAcceleration: "prefer-hardware"`, the variant
with latency mode only, the variant with the hardware preference only, and
the bare variant. -/
def videoConfigCandidates (base : VideoBaseConfig) (sp : SpeedPreset) :
    List VideoEncoderConfig :=
  codecCandidates.flatMap fun codec =>
    [⟨codec, base.width, base.height, base.bitrate, base.framerate,
        some sp.latencyMode, some "prefer-hardware"⟩,
     ⟨codec, base.width, base.height, base.bitrate, base.framerate,
        some sp.latencyMode, none⟩,
     ⟨codec, base.width, base.height, base.bitrate, base.framerate,
        none, some "prefer-hardware"⟩,
     ⟨codec, base.width, base.height, base.bitrate, base.framerate,
        none, none⟩]

/-- C10: the candidate list always holds exactly 16 configurations — for each
codec string in the fixed order `avc1.42E01E`, `avc1.4D401E`, `avc1.640028`,
`avc1.42001E`, the four variants (hardware preference + latency mode, latency
mode only, hardware preference only, neither), so all four variants of one
codec precede any variant of the next codec. -/
theorem candidate_list_structure (base : VideoBaseConfig) (sp : SpeedPreset) :
    (videoConfigCandidates base sp).length = 16
    ∧ videoConfigCandidates base sp
      = [⟨"avc1.42E01E", base.width, base.height, base.bitrate, base.framerate,
            some sp.latencyMode, some "prefer-hardware"⟩,
         ⟨"avc1.42E01E", base.width, base.height, base.bitrate, base.framerate,
            some sp.latencyMode, none⟩,
         ⟨"avc1.42E01E", base.width, base.height, base.bitrate, base.framerate,
            none, some "prefer-hardware"⟩,
         ⟨"avc1.42E01E", base.width, base.height, base.bitrate, base.framerate,
            none, none⟩,
         ⟨"avc1.4D401E", base.width, base.height, base.bitrate, base.framerate,
            some sp.latencyMode, some "prefer-hardware"⟩,
         ⟨"avc1.4D401E", base.width, base.height, base.bitrate, base.framerate,
            some sp.latencyMode, none⟩,
         ⟨"avc1.4D401E", base.width, base.height, base.bitrate, base.framerate,
            none, some "prefer-hardware"⟩,
         ⟨"avc1.4D401E", base.width, base.height, base.bitrate, base.framerate,
            none, none⟩,
         ⟨"avc1.640028", base.width, base.height, base.bitrate, base.framerate,
            some sp.latencyMode, some "prefer-hardware"⟩,
         ⟨"avc1.640028", base.width, base.height, base.bitrate, base.framerate,
            some sp.latencyMode, none⟩,
         ⟨"avc1.640028", base.width, base.height, base.bitrate, base.framerate,
            none, some "prefer-hardware"⟩,
         ⟨"avc1.640028", base.width, base.height, base.bitrate, base.framerate,
            none, none⟩,
         ⟨"avc1.42001E", base.width, base.height, base.bitrate, base.framerate,
            some sp.latencyMode, some "prefer-hardware"⟩,
         ⟨"avc1.42001E", base.width, base.height, base.bitrate, base.framerate,
            some sp.latencyMode, none⟩,
         ⟨"avc1.42001E", base.width, base.height, base.bitrate, base.framerate,
            none, some "prefer-hardware"⟩,
         ⟨"avc1.42001E", base.width, base.height, base.bitrate, base.framerate,
            none, none⟩] := by
  constructor
  · rfl
  · rfl

/-- `VideoEncoder.isConfigSupported` result: the `supported` flag and the
optional normalized `config` the platform may hand back. -/
structure SupportResult where
  supported : Bool
  config : Option VideoEncoderConfig
deriving DecidableEq

/-- The negotiation loop of `runConversion`: walk the candidates in order and
keep `support.config ?? candidate` for the first candidate whose support
query answers `supported`. -/
def negotiateVideoConfig (support : VideoEncoderConfig → SupportResult) :
    List VideoEncoderConfig → Option VideoEncoderConfig
  | [] => none
  | c :: rest =>
    if (support c).supported then some ((support c).config.getD c)
    else negotiateVideoConfig support rest

/-- `if (!chosenVideoConfig) throw new Error("H.264 encoding is not supported in this browser.")`. -/
def chooseVideoConfigOrFail (support : VideoEncoderConfig → SupportResult)
    (cands : List VideoEncoderConfig) : Except String VideoEncoderConfig :=
  match negotiateVideoConfig support cands with
  | some c => .ok c
  | none => .error "H.264 encoding is not supported in this browser."

/-- C5: negotiation returns, for the first candidate the platform reports
supported, the platform's normalized configuration when offered and the
candidate itself otherwise; when no candidate is supported it returns `none`
and the run fails with the fatal H.264 error; and it is deterministic — two
extensionally equal support functions choose the same configuration. -/
theorem negotiation_first_supported (support support₂ : VideoEncoderConfig → SupportResult)
    (cands : List VideoEncoderConfig) (hext : ∀ c, support c = support₂ c) :
    negotiateVideoConfig support cands
      = (cands.find? fun c => (support c).supported).map
          (fun c => (support c).config.getD c)
    ∧ (negotiateVideoConfig support cands = none →
        chooseVideoConfigOrFail support cands
          = Except.error "H.264 encoding is not supported in this browser.")
    ∧ negotiateVideoConfig support cands = negotiateVideoConfig support₂ cands := by
  refine ⟨?_, ?_, ?_⟩
  · induction cands with
    | nil => rfl
    | cons c rest ih =>
      by_cases h : (support c).supported
      · simp [negotiateVideoConfig, List.find?_cons_of_pos, h]
      · simp [negotiateVideoConfig, List.find?_cons_of_neg, h, ih]
  · intro h
    simp [chooseVideoConfigOrFail, h]
  · have hfun : support = support₂ := funext hext
    rw [hfun]

/-- A concrete configuration used to witness C5. -/
def sampleConfig : VideoEncoderConfig :=
  ⟨"avc1.42E01E", 1280, 720, 1935360, 30, none, none⟩

/-- A support function that accepts everything without normalizing. -/
def acceptAllSupport : VideoEncoderConfig → SupportResult := fun _ => ⟨true, none⟩

/-- Witness for C5 on a singleton candidate list with an all-accepting
platform. -/
theorem negotiation_first_supported_witness :
    (∀ c, acceptAllSupport c = acceptAllSupport c)
    ∧ (negotiateVideoConfig acceptAllSupport [sampleConfig]
        = (([sampleConfig].find? fun c => (acceptAllSupport c).supported).map
            (fun c => (acceptAllSupport c).config.getD c))
      ∧ (negotiateVideoConfig acceptAllSupport [sampleConfig] = none →
          chooseVideoConfigOrFail acceptAllSupport [sampleConfig]
            = Except.error "H.264 encoding is not supported in this browser.")
      ∧ negotiateVideoConfig acceptAllSupport [sampleConfig]
          = negotiateVideoConfig acceptAllSupport [sampleConfig]) :=
  ⟨fun _ => rfl,
    negotiation_first_supported acceptAllSupport acceptAllSupport [sampleConfig] fun _ => rfl⟩

/-- One pulled `AudioData` sample: its reported sample rate and channel count
(0 models a falsy/unknown value) and its timestamp. -/
structure AudioSample where
  sampleRate : ℕ
  numberOfChannels : ℕ
  timestamp : ℚ
deriving DecidableEq

/-- Outcome of the audio-attribute probe (lines `if (includeAudioTrack &&
audioReader && (!audioSampleRate || !audioChannels))` and the disable block
that follows): the possibly lowered `includeAudioTrack`, the learned
attributes, the still-buffered sample, and how many times the buffered
sample's `close()` ran during the probe. -/
structure AudioProbeResult where
  includeAudioTrack : Bool
  audioSampleRate : ℕ
  audioChannels : ℕ
  bufferedAudio : Option AudioSample
  bufferedCloses : ℕ
deriving DecidableEq

/-- The audio-attribute probe: when attributes are unknown, pull one sample
(`firstRead` is what `audioReader.read()` yields, `none` for a done stream)
and take its attributes; if they are still falsy afterwards, disable audio
and close the buffered sample. -/
def probeAudio (includeAudioTrack : Bool) (sr ch : ℕ)
    (firstRead : Option AudioSample) : AudioProbeResult :=
  let afterRead : ℕ × ℕ × Option AudioSample :=
    if includeAudioTrack ∧ (sr = 0 ∨ ch = 0) then
      match firstRead with
      | some a => (a.sampleRate, a.numberOfChannels, some a)
      | none => (sr, ch, none)
    else (sr, ch, none)
  if includeAudioTrack ∧ (afterRead.1 = 0 ∨ afterRead.2.1 = 0) then
    ⟨false, afterRead.1, afterRead.2.1, none, if afterRead.2.2.isSome then 1 else 0⟩
  else
    ⟨includeAudioTrack, afterRead.1, afterRead.2.1, afterRead.2.2, 0⟩

/-- Resource-relevant operations of one conversion run. -/
inductive RunAction
  | stopTimer
  | pauseElement
  | removeElement
  | revokeUrl
  | setConvertingOff
  | closeBuffered
  | closeUnit (video : Bool) (timestamp : ℚ)
  | configureEncoder (video : Bool)
  | closeEncoder (video : Bool)
  | trackStop (video : Bool)
  | finalizeMuxer
  | setOutput
deriving DecidableEq

/-- The external circumstances of one `runConversion` call: which awaited
steps succeed, what the platform supports, what the source looks like, and —
for a run aborted by a playback error — how many units each task had pulled
when the error fired. -/
structure RunScenario where
  metadataOk : Bool
  captureOk : Bool
  hasVideoTrack : Bool
  video : VideoSourceInfo
  includeAudio : Bool
  hasAudioTrack : Bool
  settingsSampleRate : ℕ
  settingsChannels : ℕ
  firstAudioRead : Option AudioSample
  playOk : Bool
  videoSupport : VideoEncoderConfig → SupportResult
  audioSupported : Bool
  playbackEndsOk : Bool
  hadInputUrl : Bool
  videoFrames : List ℚ
  audioSamples : List ℚ
  framesPulledAtFailure : ℕ
  samplesPulledAtFailure : ℕ

/-- The `finally` block of `runConversion`: stop the progress timer, pause
and remove the hidden video element, revoke the working object URL when the
run created it (`shouldRevokeWorkingUrl = !inputUrl`), and clear the
converting flag.  It stops no tracks and closes no encoders. -/
def finallyActions (sc : RunScenario) : List RunAction :=
  [.stopTimer, .pauseElement, .removeElement]
    ++ (if sc.hadInputUrl then [] else [.revokeUrl])
    ++ [.setConvertingOff]

/-- The tail of the `try` block after metadata load, capture, video-track
and playback checks all passed: audio probe results, video negotiation, and
either the playback-error abort or the success path with track stops, task
completion, encoder flush/close and muxer finalization. -/
def tryPhaseTail (pr : AudioProbeResult) (negotiated : Option VideoEncoderConfig)
    (hasAudioTrack audioSupported playbackEndsOk : Bool)
    (videoFrames audioSamples : List ℚ) (framesPulled samplesPulled : ℕ) :
    List RunAction × Option String :=
  let probeActs : List RunAction :=
    if pr.bufferedCloses = 1 then [.closeBuffered] else []
  match negotiated with
  | none => (probeActs, some "H.264 encoding is not supported in this browser.")
  | some _ =>
    let audioEnabled := pr.includeAudioTrack && decide (pr.audioSampleRate ≠ 0)
      && decide (pr.audioChannels ≠ 0) && audioSupported
    let encActs : List RunAction :=
      [.configureEncoder true] ++ (if audioEnabled then [.configureEncoder false] else [])
    let bufSync : List RunAction :=
      if audioEnabled && pr.bufferedAudio.isSome then [.closeBuffered] else []
    match playbackEndsOk with
    | false =>
      (probeActs ++ encActs ++ bufSync
        ++ (videoFrames.take framesPulled).map (RunAction.closeUnit true)
        ++ (if audioEnabled then
              (audioSamples.take samplesPulled).map (RunAction.closeUnit false)
            else []),
        some "Playback failed.")
    | true =>
      (probeActs ++ encActs ++ bufSync
        ++ [.pauseElement, .trackStop true]
        ++ (if hasAudioTrack then [.trackStop false] else [])
        ++ videoFrames.map (RunAction.closeUnit true)
        ++ (if audioEnabled then audioSamples.map (RunAction.closeUnit false) else [])
        ++ [.closeEncoder true]
        ++ (if audioEnabled then [.closeEncoder false] else [])
        ++ [.finalizeMuxer, .setOutput],
        none)

/-- The `try` block of `runConversion`, as the list of resource actions it
performs and the error it throws (`none` on success).  Each `throw` site of
the source is a branch returning its message. -/
def tryPhase (sc : RunScenario) (q : QualityPreset) (sp : SpeedPreset) :
    List RunAction × Option String :=
  match sc.metadataOk with
  | false => ([], some "Failed to load video metadata.")
  | true =>
    match sc.captureOk with
    | false => ([], some "captureStream is not available in this browser.")
    | true =>
      match sc.hasVideoTrack with
      | false => ([], some "No video track found in this file.")
      | true =>
        match sc.playOk with
        | false => ([], some "Playback was blocked. Click convert again to allow it.")
        | true =>
          tryPhaseTail
            (probeAudio (sc.includeAudio && sc.hasAudioTrack) sc.settingsSampleRate
              sc.settingsChannels sc.firstAudioRead)
            (negotiateVideoConfig sc.videoSupport
              (videoConfigCandidates
                ⟨encWidth sc.video, encHeight sc.video, videoBitrate sc.video q,
                  frameRateOf sc.video⟩ sp))
            sc.hasAudioTrack sc.audioSupported sc.playbackEndsOk
            sc.videoFrames sc.audioSamples sc.framesPulledAtFailure sc.samplesPulledAtFailure

/-- A whole `runConversion` call: the `try` phase followed unconditionally by
the `finally` block, paired with the surfaced error. -/
def runConv (sc : RunScenario) (q : QualityPreset) (sp : SpeedPreset) :
    List RunAction × Option String :=
  ((tryPhase sc q sp).1 ++ finallyActions sc, (tryPhase sc q sp).2)

/-- Actions a fatal `try` phase can have performed: probe-time buffered
release, encoder configuration, and in-loop unit closes. -/
def fatalReleasable : RunAction → Bool
  | .closeBuffered => true
  | .configureEncoder _ => true
  | .closeUnit _ _ => true
  | _ => false

lemma tryPhaseTail_fatal_all (pr : AudioProbeResult)
    (negotiated : Option VideoEncoderConfig) (hat asup peo : Bool)
    (vf asamp : List ℚ) (fpf spf : ℕ)
    (h : (tryPhaseTail pr negotiated hat asup peo vf asamp fpf spf).2 ≠ none) :
    ((tryPhaseTail pr negotiated hat asup peo vf asamp fpf spf).1.all fatalReleasable)
      = true := by
  rcases negotiated with _ | cfg
  · by_cases hc : pr.bufferedCloses = 1 <;> simp [tryPhaseTail, hc, fatalReleasable]
  · cases peo
    · simp only [tryPhaseTail]
      split_ifs <;>
        simp [List.all_append, fatalReleasable, List.all_map, Function.comp,
          List.all_eq_true] <;>
      first
        | (refine ⟨?_, ?_⟩ <;>
            (intro x hx
             rcases List.mem_map.1 (List.mem_of_mem_take hx) with ⟨ts, -, rfl⟩
             rfl))
        | (intro x hx
           rcases List.mem_map.1 (List.mem_of_mem_take hx) with ⟨ts, -, rfl⟩
           rfl)
    · simp [tryPhaseTail] at h

lemma tryPhase_fatal_all (sc : RunScenario) (q : QualityPreset) (sp : SpeedPreset)
    (h : (tryPhase sc q sp).2 ≠ none) :
    ((tryPhase sc q sp).1.all fatalReleasable) = true := by
  rcases sc with ⟨mo, co, hv, vid, ia, hat, ssr, sch, far, po, vs, asup, peo, hiu, vf,
    asamp, fpf, spf⟩
  cases mo
  · rfl
  · cases co
    · rfl
    · cases hv
      · rfl
      · cases po
        · rfl
        · exact tryPhaseTail_fatal_all _ _ _ _ _ _ _ _ _ h

lemma mem_finallyActions (sc : RunScenario) (a : RunAction) :
    a ∈ finallyActions sc ↔
      a = .stopTimer ∨ a = .pauseElement ∨ a = .removeElement
        ∨ (a = .revokeUrl ∧ sc.hadInputUrl = false) ∨ a = .setConvertingOff := by
  cases h : sc.hadInputUrl <;> simp [finallyActions, h]

/-- C8 (amended): every fatal path still runs the whole `finally` block —
stop the progress timer, pause and remove the hidden element, revoke the
temporary object URL exactly when the run created it — and leaves the muxer
unfinalized with no output produced; but, contrary to the original claim, no
fatal path ever stops the media tracks or closes an opened encoder (the only
releases a fatal `try` phase performs are the probe-time buffered-sample
close, encoder configuration, and the in-loop unit closes). -/
theorem fatal_cleanup_amended (sc : RunScenario) (q : QualityPreset) (sp : SpeedPreset)
    (hfatal : (runConv sc q sp).2 ≠ none) :
    (runConv sc q sp).1 = (tryPhase sc q sp).1 ++ finallyActions sc
    ∧ RunAction.finalizeMuxer ∉ (runConv sc q sp).1
    ∧ RunAction.setOutput ∉ (runConv sc q sp).1
    ∧ (∀ b, RunAction.trackStop b ∉ (runConv sc q sp).1)
    ∧ (∀ b, RunAction.closeEncoder b ∉ (runConv sc q sp).1)
    ∧ (RunAction.revokeUrl ∈ (runConv sc q sp).1 ↔ sc.hadInputUrl = false) := by
  have htry : ∀ a ∈ (tryPhase sc q sp).1, fatalReleasable a = true := by
    simpa [List.all_eq_true] using tryPhase_fatal_all sc q sp hfatal
  refine ⟨rfl, ?_, ?_, ?_, ?_, ?_, ?_⟩
  · intro hmem
    rcases List.mem_append.1 hmem with hm | hm
    · have := htry _ hm
      simp [fatalReleasable] at this
    · rcases (mem_finallyActions sc _).1 hm with h | h | h | ⟨h, -⟩ | h <;> simp_all
  · intro hmem
    rcases List.mem_append.1 hmem with hm | hm
    · have := htry _ hm
      simp [fatalReleasable] at this
    · rcases (mem_finallyActions sc _).1 hm with h | h | h | ⟨h, -⟩ | h <;> simp_all
  · intro b hmem
    rcases List.mem_append.1 hmem with hm | hm
    · have := htry _ hm
      simp [fatalReleasable] at this
    · rcases (mem_finallyActions sc _).1 hm with h | h | h | ⟨h, -⟩ | h <;> simp_all
  · intro b hmem
    rcases List.mem_append.1 hmem with hm | hm
    · have := htry _ hm
      simp [fatalReleasable] at this
    · rcases (mem_finallyActions sc _).1 hm with h | h | h | ⟨h, -⟩ | h <;> simp_all
  · intro hmem
    rcases List.mem_append.1 hmem with hm | hm
    · have := htry _ hm
      simp [fatalReleasable] at this
    · rcases (mem_finallyActions sc _).1 hm with h | h | h | ⟨-, h⟩ | h <;> simp_all
  · intro hiu
    exact List.mem_append.2 (Or.inr ((mem_finallyActions sc _).2
      (Or.inr (Or.inr (Or.inr (Or.inl ⟨rfl, hiu⟩))))))

/-- A run whose driving clock errors mid-playback ("Playback failed."),
with video-only conversion on a 1280×720/30 source, an all-accepting
platform encoder, and a run-created working URL. -/
def playbackFailScenario : RunScenario where
  metadataOk := true
  captureOk := true
  hasVideoTrack := true
  video := hdSource
  includeAudio := false
  hasAudioTrack := false
  settingsSampleRate := 0
  settingsChannels := 0
  firstAudioRead := none
  playOk := true
  videoSupport := acceptAllSupport
  audioSupported := true
  playbackEndsOk := false
  hadInputUrl := false
  videoFrames := []
  audioSamples := []
  framesPulledAtFailure := 0
  samplesPulledAtFailure := 0

/-- C8 counterexample: a mid-run playback failure aborts the run after the
video encoder has been opened, yet the run neither stops the media track nor
closes the opened encoder — the claimed full resource-release sequence does
not happen (the muxer is correctly left unfinalized). -/
theorem fatal_cleanup_counterexample :
    (runConv playbackFailScenario qualityBalanced speedStandard).2 = some "Playback failed."
    ∧ RunAction.configureEncoder true
        ∈ (runConv playbackFailScenario qualityBalanced speedStandard).1
    ∧ RunAction.trackStop true
        ∉ (runConv playbackFailScenario qualityBalanced speedStandard).1
    ∧ RunAction.trackStop false
        ∉ (runConv playbackFailScenario qualityBalanced speedStandard).1
    ∧ RunAction.closeEncoder true
        ∉ (runConv playbackFailScenario qualityBalanced speedStandard).1
    ∧ RunAction.finalizeMuxer
        ∉ (runConv playbackFailScenario qualityBalanced speedStandard).1 := by
  decide

/-- Witness for the amended C8 at the playback-failure scenario. -/
theorem fatal_cleanup_amended_witness :
    ((runConv playbackFailScenario qualityBalanced speedStandard).2 ≠ none)
    ∧ ((runConv playbackFailScenario qualityBalanced speedStandard).1
        = (tryPhase playbackFailScenario qualityBalanced speedStandard).1
            ++ finallyActions playbackFailScenario
      ∧ RunAction.finalizeMuxer
          ∉ (runConv playbackFailScenario qualityBalanced speedStandard).1
      ∧ RunAction.setOutput
          ∉ (runConv playbackFailScenario qualityBalanced speedStandard).1
      ∧ (∀ b, RunAction.trackStop b
          ∉ (runConv playbackFailScenario qualityBalanced speedStandard).1)
      ∧ (∀ b, RunAction.closeEncoder b
          ∉ (runConv playbackFailScenario qualityBalanced speedStandard).1)
      ∧ (RunAction.revokeUrl ∈ (runConv playbackFailScenario qualityBalanced speedStandard).1
          ↔ playbackFailScenario.hadInputUrl = false)) :=
  ⟨by decide,
    fatal_cleanup_amended playbackFailScenario qualityBalanced speedStandard (by decide)⟩

/-- A run in which audio attributes are unknown from the track settings, the
single pulled probe sample `a` also fails to provide them, and everything
else succeeds. -/
def audioProbeDisableScenario (a : AudioSample) : RunScenario where
  metadataOk := true
  captureOk := true
  hasVideoTrack := true
  video := hdSource
  includeAudio := true
  hasAudioTrack := true
  settingsSampleRate := 0
  settingsChannels := 0
  firstAudioRead := some a
  playOk := true
  videoSupport := acceptAllSupport
  audioSupported := true
  playbackEndsOk := true
  hadInputUrl := true
  videoFrames := []
  audioSamples := []
  framesPulledAtFailure := 0
  samplesPulledAtFailure := 0

/-- C7: when the audio attributes are still falsy after one pulled sample,
the probe disables audio for the run, closes the buffered sample exactly once
and drops the reference; and a whole such run still succeeds (video-only,
error `none`) with the buffered sample's `close()` appearing exactly once in
its action trace. -/
theorem audio_probe_disables_and_releases (sr ch : ℕ) (a : AudioSample)
    (q : QualityPreset) (sp : SpeedPreset)
    (hmiss : sr = 0 ∨ ch = 0)
    (hbad : a.sampleRate = 0 ∨ a.numberOfChannels = 0) :
    (probeAudio true sr ch (some a)).includeAudioTrack = false
    ∧ (probeAudio true sr ch (some a)).bufferedCloses = 1
    ∧ (probeAudio true sr ch (some a)).bufferedAudio = none
    ∧ (runConv (audioProbeDisableScenario a) q sp).2 = none
    ∧ ((runConv (audioProbeDisableScenario a) q sp).1.count RunAction.closeBuffered) = 1 := by
  have hpr : probeAudio true sr ch (some a)
      = ⟨false, a.sampleRate, a.numberOfChannels, none, 1⟩ := by
    unfold probeAudio
    rcases hmiss with h | h <;> rcases hbad with h2 | h2 <;> simp [h, h2]
  have hpr0 : probeAudio (true && true) 0 0 (some a)
      = ⟨false, a.sampleRate, a.numberOfChannels, none, 1⟩ := by
    unfold probeAudio
    rcases hbad with h2 | h2 <;> simp [h2]
  obtain ⟨cfg, hcfg⟩ : ∃ cfg, negotiateVideoConfig acceptAllSupport
      (videoConfigCandidates
        ⟨encWidth hdSource, encHeight hdSource, videoBitrate hdSource q,
          frameRateOf hdSource⟩ sp) = some cfg := by
    simp [negotiateVideoConfig, videoConfigCandidates, codecCandidates, acceptAllSupport]
  have htp : tryPhase (audioProbeDisableScenario a) q sp
      = ([.closeBuffered, .configureEncoder true, .pauseElement, .trackStop true,
          .trackStop false, .closeEncoder true, .finalizeMuxer, .setOutput], none) := by
    show tryPhaseTail (probeAudio (true && true) 0 0 (some a))
        (negotiateVideoConfig acceptAllSupport
          (videoConfigCandidates
            ⟨encWidth hdSource, encHeight hdSource, videoBitrate hdSource q,
              frameRateOf hdSource⟩ sp))
        true true true [] [] 0 0 = _
    rw [hpr0, hcfg]
    rfl
  refine ⟨by rw [hpr], by rw [hpr], by rw [hpr], ?_, ?_⟩
  · show (tryPhase (audioProbeDisableScenario a) q sp).2 = none
    rw [htp]
  · show ((tryPhase (audioProbeDisableScenario a) q sp).1
        ++ finallyActions (audioProbeDisableScenario a)).count RunAction.closeBuffered = 1
    rw [htp]
    rfl

/-- Witness for C7 with a probe sample reporting zero sample rate. -/
theorem audio_probe_disables_and_releases_witness :
    ((0 : ℕ) = 0 ∨ (0 : ℕ) = 0)
    ∧ ((⟨0, 2, 0⟩ : AudioSample).sampleRate = 0
        ∨ (⟨0, 2, 0⟩ : AudioSample).numberOfChannels = 0)
    ∧ ((probeAudio true 0 0 (some ⟨0, 2, 0⟩)).includeAudioTrack = false
      ∧ (probeAudio true 0 0 (some ⟨0, 2, 0⟩)).bufferedCloses = 1
      ∧ (probeAudio true 0 0 (some ⟨0, 2, 0⟩)).bufferedAudio = none
      ∧ (runConv (audioProbeDisableScenario ⟨0, 2, 0⟩) qualityBalanced speedStandard).2 = none
      ∧ ((runConv (audioProbeDisableScenario ⟨0, 2, 0⟩) qualityBalanced
          speedStandard).1.count RunAction.closeBuffered) = 1) :=
  ⟨Or.inl rfl, Or.inl rfl,
    audio_probe_disables_and_releases 0 0 ⟨0, 2, 0⟩ qualityBalanced speedStandard
      (Or.inl rfl) (Or.inl rfl)⟩
